import Mathlib

/-!
Verification development for the ZalandoScraper multi-source product scraper.

The development shallowly embeds the parts of the code base that the checked
properties are about:

* `app/utils/url_parser.py`      — URL validation and product-code extraction;
* `app/services/crawl_scraper.py`— legacy size-table normalization;
* `app/utils/crawl4ai_utils.py`  — modern per-SKU size-block parsing;
* `app/services/scraper_service.py` — price normalization, discount
  percentage, the three-source orchestrator `scrape_product` and the
  reconciliation step `_merge_responses`.

Python strings are modelled as `String` / `List Char`; Python numbers as `ℚ`;
the loosely typed JSON-like payloads as the inductive `JVal`; fallible Python
code (code that can raise) as `Except String`.  Network and rendering I/O is
out of scope: the raw payloads a fetcher would return are universally
quantified parameters of the embedded functions.
-/

/-- JSON-like values: the loosely typed Python data (dicts, lists, strings,
numbers, `None`) that flows between the scrapers. -/
inductive JVal where
  | null
  | str (s : String)
  | num (q : ℚ)
  | arr (elems : List JVal)
  | obj (fields : List (String × JVal))

/-- Python dict lookup by key: first binding wins (dict keys are unique, and
insertion order is preserved, which the association list mirrors). -/
def dictGet {α : Type} (fields : List (String × α)) (k : String) : Option α :=
  match fields with
  | [] => none
  | (k1, v) :: rest => if k1 = k then some v else dictGet rest k

/-- Python `d.get(k, default)` on an association-list dict. -/
def dictGetD {α : Type} (fields : List (String × α)) (k : String) (d : α) : α :=
  (dictGet fields k).getD d

/-- Python `d[k] = v`: replaces the binding in place when the key exists,
appends it otherwise (dict insertion-order semantics). -/
def dictSet {α : Type} : List (String × α) → String → α → List (String × α)
  | [], k, v => [(k, v)]
  | (k1, v1) :: rest, k, v =>
      if k1 = k then (k, v) :: rest else (k1, v1) :: dictSet rest k v

/-- Python `value.get(k)` on a dict value.  The embedded call sites only
apply it to dicts; on a non-dict we return `none` (absent). -/
def JVal.get : JVal → String → Option JVal
  | JVal.obj fields, k => dictGet fields k
  | _, _ => none

/-- Python `value.get(k, default)`. -/
def JVal.getD (v : JVal) (k : String) (d : JVal) : JVal := (v.get k).getD d

/-- Python truthiness of a value: `None`, `""`, `0`, `[]`, `{}` are falsy. -/
def JVal.truthy : JVal → Bool
  | JVal.null => false
  | JVal.str s => s ≠ ""
  | JVal.num q => q ≠ 0
  | JVal.arr xs => !xs.isEmpty
  | JVal.obj fs => !fs.isEmpty

/-- Python `lst[0]`: head of a list value, `IndexError` on an empty list,
`TypeError` on a non-list. -/
def JVal.index0 : JVal → Except String JVal
  | JVal.arr (x :: _) => Except.ok x
  | JVal.arr [] => Except.error "IndexError"
  | _ => Except.error "TypeError"

/-- Embed an optional string as a Python value (`None` or the string). -/
def JVal.ofOptStr : Option String → JVal
  | none => JVal.null
  | some s => JVal.str s

/-- Character-level lowercasing; Python `str.lower` on the ASCII phrases the
scrapers match against. -/
def lowerStr (s : String) : String := String.mk (s.data.map Char.toLower)

/-- Boolean prefix test on character lists: `startsWithList pat l` holds when
`l` begins with `pat`. -/
def startsWithList : List Char → List Char → Bool
  | [], _ => true
  | _ :: _, [] => false
  | a :: as, b :: bs => a == b && startsWithList as bs

/-- Python substring test `pat in s`, on character lists. -/
def containsList (pat : List Char) : List Char → Bool
  | [] => startsWithList pat []
  | c :: rest => startsWithList pat (c :: rest) || containsList pat rest

/-- Python `pat in s` on strings. -/
def strContains (s pat : String) : Bool := containsList pat.data s.data

/-- Whitespace for Python `str.strip` / the regex class `\s` (the forms that
occur in the scraped phrases). -/
def isSpaceChar (c : Char) : Bool := c == ' ' || c == '\t' || c == '\n' || c == '\r'

/-- Python `str.strip()`. -/
def pystrip (s : String) : String :=
  String.mk (((s.data.dropWhile isSpaceChar).reverse.dropWhile isSpaceChar).reverse)

namespace ZalandoURLParser

/-- The regex character class `[a-zA-Z0-9]` (ASCII alphanumeric). -/
def isAlnum (c : Char) : Bool := c.isAlphanum

/-- `ZalandoURLParser.extract_product_code` (url_parser.py lines 9-22):
`re.search` of the end-anchored pattern hyphen, alphanumeric run, hyphen,
alphanumeric run, ".html", returning the two runs upper-cased, or `None`
when the pattern does not match.  Because the pattern is anchored at the end
of the string and its alphanumeric runs cannot contain hyphens, the leftmost
regex match is exactly the decomposition read off from the reversed string:
".html" at the end, then the maximal alphanumeric run before it, a hyphen,
a second maximal alphanumeric run, and another hyphen.
`parseRunDash` consumes one maximal nonempty alphanumeric run followed by a
hyphen from the reversed tail. -/
def parseRunDash (l : List Char) : Option (List Char × List Char) :=
  match l.takeWhile isAlnum, l.dropWhile isAlnum with
  | run :: runs, '-' :: rest => some (run :: runs, rest)
  | _, _ => none

/-- See `parseRunDash` above: the embedding of `extract_product_code`. -/
def extract_product_code (url : String) : Option String :=
  if startsWithList (".html".data.reverse) url.data.reverse then
    match parseRunDash (url.data.reverse.drop 5) with
    | some (run2, aft2) =>
      match parseRunDash aft2 with
      | some (run1, _) =>
          some (String.mk ((run1.reverse ++ '-' :: run2.reverse).map Char.toUpper))
      | none => none
    | none => none
  else none

/-- `urlparse(url).netloc` for the call sites of this service: the authority
part after the `http://` / `https://` prefix, up to the first `/`, `?` or
`#`.  The parser only consults the netloc after the scheme-prefix check, so
other URL shapes are irrelevant here. -/
def netloc (url : String) : String :=
  let cs := url.data
  let rest :=
    if startsWithList "http://".data cs then cs.drop 7
    else if startsWithList "https://".data cs then cs.drop 8
    else []
  String.mk (rest.takeWhile (fun c => c ≠ '/' && c ≠ '?' && c ≠ '#'))

/-- Python `netloc.replace("www.", "")`: removes every occurrence, scanning
left to right without overlap. -/
def removeWWW : List Char → List Char
  | 'w' :: 'w' :: 'w' :: '.' :: rest => removeWWW rest
  | c :: rest => c :: removeWWW rest
  | [] => []

/-- `ZalandoURLParser.extract_domain_info` (url_parser.py lines 24-36):
domain is the netloc with `www.` occurrences removed; the language is the
constant `"en-US"` by design. -/
def extract_domain_info (url : String) : String × String :=
  (String.mk (removeWWW (netloc url).data), "en-US")

/-- The eight accepted retailer domain strings of
`is_valid_zalando_url` (url_parser.py lines 48-51). -/
def zalandoDomains : List String :=
  ["zalando.de", "zalando.it", "zalando.fr", "zalando.es",
   "zalando.nl", "zalando.pl", "zalando.co.uk", "zalando.com"]

/-- `ZalandoURLParser.is_valid_zalando_url` (url_parser.py lines 38-55):
the URL must start with the literal `http://` or `https://`, the
`www.`-stripped netloc must *contain* one of the accepted domain strings as
a substring (Python `zalando_domain in domain`), and the product-code
pattern must match. -/
def is_valid_zalando_url (url : String) : Bool :=
  (startsWithList "http://".data url.data || startsWithList "https://".data url.data)
  && zalandoDomains.any (fun d => containsList d.data (removeWWW (netloc url).data))
  && (extract_product_code url).isSome

end ZalandoURLParser

/-- Maximal-munch value of a digit run, Python `int(group(1))`. -/
def digitRunVal (l : List Char) : ℕ :=
  l.foldl (fun acc c => 10 * acc + (c.toNat - '0'.toNat)) 0

/-- Match a literal character sequence at the head of a list, returning the
remainder on success. -/
def dropLit : List Char → List Char → Option (List Char)
  | [], l => some l
  | _ :: _, [] => none
  | a :: as, b :: bs => if a == b then dropLit as bs else none

/-- Run a position matcher over every suffix, leftmost match first:
`re.search` semantics for the anchored-at-position matchers below. -/
def searchWith (m : List Char → Option ℕ) : List Char → Option ℕ
  | [] => m []
  | c :: rest =>
    match m (c :: rest) with
    | some n => some n
    | none => searchWith m rest

/-- Match the regex `(\d+)\s*LIT` at the current position: a nonempty digit
run, optional whitespace, then the literal `lit`.  Digit and whitespace
greed is deterministic here because the literals start with a letter. -/
def matchNumThenLit (lit : List Char) (l : List Char) : Option ℕ :=
  let digits := l.takeWhile Char.isDigit
  if digits.isEmpty then none
  else
    let rest := (l.dropWhile Char.isDigit).dropWhile isSpaceChar
    if (dropLit lit rest).isSome then some (digitRunVal digits) else none

namespace Crawl4AIScraper

/-- The availability states of `app/models/schemas.py`. -/
inductive AvailabilityStatus where
  | in_stock
  | out_of_stock
  | low_stock
  | unknown
  deriving DecidableEq

/-- Match `(\d+)\s*articoli? disponibili?` at the current position: digits,
optional whitespace, `articol`, an optional `i`, a space, `disponibil`, and
an optional trailing `i` (which constrains nothing further).  The greedy
reading is exact: a digit cannot continue into the literal, whitespace
cannot start it, and skipping an optional `i` would require a space where
the `i` stands. -/
def matchQtyAt (l : List Char) : Option ℕ :=
  let digits := l.takeWhile Char.isDigit
  if digits.isEmpty then none
  else
    let rest1 := (l.dropWhile Char.isDigit).dropWhile isSpaceChar
    match dropLit "articol".data rest1 with
    | none => none
    | some rest2 =>
      let rest3 := match rest2 with
        | 'i' :: r => r
        | r => r
      if (dropLit " disponibil".data rest3).isSome then some (digitRunVal digits)
      else none

/-- The availability classification of one legacy size entry
(`Crawl4AIScraper._normalize_size_data`, crawl_scraper.py lines 90-109),
on the lowercased availability text. -/
def classifyAvailability (availabilityRaw : String) : AvailabilityStatus × Option ℕ :=
  let text := lowerStr availabilityRaw
  if strContains text "esaurito" || strContains text "out of stock" then
    (AvailabilityStatus.out_of_stock, none)
  else if strContains text "articoli disponibili" || strContains text "available" then
    match searchWith matchQtyAt text.data with
    | some q =>
        (if q ≤ 3 then AvailabilityStatus.low_stock else AvailabilityStatus.in_stock, some q)
    | none => (AvailabilityStatus.in_stock, none)
  else if strContains text "1 articolo disponibile" then
    (AvailabilityStatus.low_stock, some 1)
  else
    (AvailabilityStatus.in_stock, none)

/-- One raw entry of the legacy size table, the crawler's
`{"Size": ..., "Price": ..., "Availability": ...}` dict with possibly
missing fields. -/
structure RawSizeEntry where
  size : Option String := none
  price : Option String := none
  availability : Option String := none

/-- `SizeInfo` of `app/models/schemas.py`. -/
structure SizeInfo where
  size : String
  price : Option String := none
  availability : AvailabilityStatus
  stock_quantity : Option ℕ := none
  sku : Option String := none

/-- `Crawl4AIScraper._normalize_size_data` (crawl_scraper.py lines 71-118):
skips entries with a falsy `Size`, strips the size, discards empty,
currency-prefixed and already-seen sizes, and classifies the availability
text.  `seen` carries the already accepted size labels. -/
def normalizeSizeLoop : List RawSizeEntry → List String → List SizeInfo
  | [], _ => []
  | e :: rest, seen =>
    match e.size with
    | none => normalizeSizeLoop rest seen
    | some s0 =>
      if s0 = "" then normalizeSizeLoop rest seen
      else
        let size := pystrip s0
        if size = "" || startsWithList "€".data size.data
            || startsWithList "$".data size.data || startsWithList "£".data size.data
            || seen.contains size then
          normalizeSizeLoop rest seen
        else
          let r := classifyAvailability (e.availability.getD "")
          { size := size, price := e.price,
            availability := r.1, stock_quantity := r.2 }
            :: normalizeSizeLoop rest (size :: seen)

/-- Entry point of the legacy normalization. -/
def normalize_size_data (raw : List RawSizeEntry) : List SizeInfo :=
  normalizeSizeLoop raw []

end Crawl4AIScraper

namespace ZalandoCrawl4AIScraper

/-- Match `Articoli\s+disponibili\s*:\s*(\d+)` at the current position. -/
def matchArticoliColonAt (l : List Char) : Option ℕ :=
  match dropLit "Articoli".data l with
  | none => none
  | some r1 =>
    if (r1.takeWhile isSpaceChar).isEmpty then none
    else
      match dropLit "disponibili".data (r1.dropWhile isSpaceChar) with
      | none => none
      | some r2 =>
        match r2.dropWhile isSpaceChar with
        | ':' :: r3 =>
          let digits := (r3.dropWhile isSpaceChar).takeWhile Char.isDigit
          if digits.isEmpty then none else some (digitRunVal digits)
        | _ => none

/-- The alternation `(?:pz|pezzo|pezzi)` at the current position. -/
def matchPzAlt (l : List Char) : Bool :=
  (dropLit "pz".data l).isSome || (dropLit "pezzo".data l).isSome
    || (dropLit "pezzi".data l).isSome

/-- Match `(?:solo\s*)?(\d+)\s*(?:pz|pezzo|pezzi)` at the current position;
when the optional `solo` prefix matches but the rest does not, the regex
backtracks to the variant without it. -/
def matchSoloPzAt (l : List Char) : Option ℕ :=
  let core := fun (l2 : List Char) =>
    let digits := l2.takeWhile Char.isDigit
    if digits.isEmpty then none
    else if matchPzAlt ((l2.dropWhile Char.isDigit).dropWhile isSpaceChar) then
      some (digitRunVal digits)
    else none
  match dropLit "solo".data l with
  | some r1 =>
    match core (r1.dropWhile isSpaceChar) with
    | some n => some n
    | none => core l
  | none => core l

/-- The quantity-extraction cascade of `extract_detailed_skus`
(crawl4ai_utils.py lines 319-330): five regex patterns tried in order over
the note; the first one that matches anywhere wins. -/
def extractQty (note : String) : Option ℕ :=
  match searchWith (matchNumThenLit "articolo".data) note.data with
  | some n => some n
  | none =>
    match searchWith matchArticoliColonAt note.data with
    | some n => some n
    | none =>
      match searchWith (matchNumThenLit "articoli".data) note.data with
      | some n => some n
      | none =>
        match searchWith (matchNumThenLit "pezzi".data) note.data with
        | some n => some n
        | none => searchWith matchSoloPzAt note.data

/-- Line 317 of crawl4ai_utils.py: a block is `"OutOfStock"` exactly when
the (case-sensitive) phrase `"Esaurito"` occurs in its note. -/
def noteAvailability (note : String) : String :=
  if strContains note "Esaurito" then "OutOfStock" else "InStock"

/-- Line 332: the long-distance flag, a case-insensitive phrase test. -/
def noteLongDistance (note : String) : String :=
  if strContains (lowerStr note) "lunga distanza" then "true" else "false"

/-- Lines 334-336: the note is cleared when it carries only the
long-distance message — the flag is set and the case-insensitive search for
`articolo|articoli|Esaurito` finds nothing. -/
def noteCleared (note : String) : String :=
  if noteLongDistance note = "true"
      && !(strContains (lowerStr note) "articolo"
            || strContains (lowerStr note) "articoli"
            || strContains (lowerStr note) "esaurito") then ""
  else note

/-- Lines 338-349: the symbolic stock string of a block.  `"0"` when out of
stock; otherwise the default `"+2"`, overridden by the literal parsed count
when a quantity pattern matched, or by `"1"` when the (possibly cleared)
note carries the single-item phrase. -/
def availableQntyStr (note : String) : String :=
  if noteAvailability note = "OutOfStock" then "0"
  else
    match extractQty note with
    | some q => toString q
    | none =>
      if strContains (noteCleared note) "1 articolo disponibile" then "1"
      else if strContains (noteCleared note) "articoli disponibili" then "+2"
      else "+2"

/-- The modern-format record built for one size block (lines 351-358): it
carries the size label, the cleared note, the symbolic stock string, the
availability and the long-distance flag — and no `sku` field (the SKU is
the key of the surrounding dict). -/
def sizeBlockRecord (size_label note : String) : JVal :=
  JVal.obj
    [("size_label", JVal.str size_label),
     ("notes", JVal.str (noteCleared note)),
     ("available_Qnty", JVal.str (availableQntyStr note)),
     ("availability", JVal.str (noteAvailability note)),
     ("long_distance", JVal.str (noteLongDistance note))]

end ZalandoCrawl4AIScraper

namespace ZalandoScraperService

/-- Python `round` to the nearest integer of an exact rational value:
round half to even. -/
def roundHalfEven (x : ℚ) : ℤ :=
  let f := ⌊x⌋
  let frac := x - (f : ℚ)
  if frac < 1/2 then f
  else if 1/2 < frac then f + 1
  else if f % 2 = 0 then f else f + 1

/-- Python `round(x, 2)`: round to two decimal places, half to even. -/
def pyRound2 (x : ℚ) : ℚ := (roundHalfEven (x * 100) : ℚ) / 100

/-- Lines 166-174 of scraper_service.py: the tracking discount percentage of
the display price.  `round(discount / (current + discount), 2)` when both
operands are present and the current amount is positive; `0` when the
current amount is not positive; `0.0` when either operand is absent. -/
def trackingDiscountPercentage (current discount : Option ℚ) : ℚ :=
  match current, discount with
  | some c, some d => if 0 < c then pyRound2 (d / (c + d)) else 0
  | _, _ => 0

/-- Reads a price facet that the code compares or computes with as a number;
`None` and absent keys behave alike under `is not None` followed by
arithmetic only for numeric values, which is what the source feeds here. -/
def numField (dp : List (String × JVal)) (k : String) : Option ℚ :=
  match dictGet dp k with
  | some (JVal.num q) => some q
  | _ => none

/-- One facet of the ÷100 normalization loop (scraper_service.py lines
177-185): a facet that is a dict carrying a numeric `amount` has the amount
divided by 100 in place; any facet whose division would raise is left
unchanged by the `except: continue`, and non-dict facets are skipped. -/
def normalizeFacet : JVal → JVal
  | JVal.obj fs =>
    match dictGet fs "amount" with
    | some (JVal.num a) => JVal.obj (dictSet fs "amount" (JVal.num (a / 100)))
    | some _ => JVal.obj fs
    | none => JVal.obj fs
  | v => v

/-- The ÷100 normalization loop over the display-price dict: each key is
visited exactly once. -/
def normalizeDisplayPrice (dp : List (String × JVal)) : List (String × JVal) :=
  dp.map (fun p => (p.1, normalizeFacet p.2))

/-- The whole display-price processing of `_fetch_api_data` (lines 166-185):
the scalar discount-percentage facet is written first, then the ÷100 loop
runs once over every facet. -/
def processDisplayPrice (dp : List (String × JVal)) : List (String × JVal) :=
  normalizeDisplayPrice
    (dictSet dp "trackingDiscountPercentage"
      (JVal.num (trackingDiscountPercentage
        (numField dp "trackingCurrentAmount") (numField dp "trackingDiscountAmount"))))

/-- `ProductData` of app/models/schemas.py (the loosely typed dict fields
are `JVal`s). -/
structure ProductData where
  id : String := ""
  name : String := ""
  sku : String := ""
  brand : String := ""
  model_number : Option String := none
  gtin : Option String := none
  product_highlight : Option JVal := none
  display_price : List (String × JVal) := []
  packshot_image : Option String := none
  silhouette : Option String := none
  navigation_target_group : Option String := none
  productFlags : List JVal := []
  simples : List JVal := []

/-- `SkuData` of app/models/schemas.py. -/
structure SkuData where
  sku : String := ""
  model_number : Option String := none
  gtin : Option String := none
  simples : List JVal := []

/-- `ModernSizeInfo` of app/models/schemas.py.  The `sku=sku` keyword passed
at merge lines 300-306 is silently dropped: the pydantic model declares no
such field. -/
structure ModernSizeInfo where
  size_label : JVal
  notes : JVal
  availability : JVal
  long_distance : JVal

/-- `CrawlData` of app/models/schemas.py. -/
structure CrawlData where
  available_sizes : List Crawl4AIScraper.SizeInfo := []
  modern_sizes : List (String × ModernSizeInfo) := []
  product_highlight : Option JVal := none
  url : String := ""

/-- The raw dict the legacy crawler's `scrape_product_page` returns
(`data[0]`), as far as `_merge_responses` reads it: the optional keys
`ModernSizes`, `AvailableSizes` and `ProductHighlight`. -/
structure CrawlRaw where
  modernSizes : Option (List (String × JVal)) := none
  availableSizes : Option (List Crawl4AIScraper.RawSizeEntry) := none
  productHighlight : Option JVal := none

/-- One entry of the merchant table built by `extract_merchant_data`
(html_parser.py): the merchant and shipper display strings. -/
structure MerchantInfo where
  merchant : Option String := none
  shipper : Option String := none

/-- The pair `fetch_html_page_data` returns on success: the merchant table
keyed by SKU and the single-variant stock record of `extract_stock_data`
(a dict with keys `sku` and `stock`). -/
structure HtmlData where
  merchantTable : List (String × MerchantInfo) := []
  stockRecord : List (String × JVal) := []

/-- `APIProductResponse` of app/models/schemas.py; the metadata keeps the
`data_sources` list (the merge timestamp is I/O and carries no checked
content). -/
structure APIProductResponse where
  product_data : Option ProductData := none
  sku_data : Option SkuData := none
  crawl_data : Option CrawlData := none
  data_sources : List String := []

/-- The success metadata of `scrape_product`. -/
structure ScrapeMetadata where
  product_code : String := ""
  domain : String := ""
  language : String := ""
  sources_api : Bool := false
  sources_crawl : Bool := false

/-- `ScrapeResponse` of app/models/schemas.py. -/
structure ScrapeResponse where
  success : Bool
  data : Option APIProductResponse := none
  error : Option String := none
  metadata : Option ScrapeMetadata := none

/-- The enrichment step for one structured-source variant entry
(scraper_service.py lines 260-269): when the entry carries a truthy string
SKU present in the SKU-to-size-info map, the mapped size-info dict is
updated in place with the entry's first GTIN, its merchant id and the SKU
itself.  `simple.get('gtins', [None])[0]` raises on a present-but-empty
list, and `.update` raises on a non-dict map value. -/
def enrichSimple (m : List (String × JVal)) (simple : JVal) :
    Except String (List (String × JVal)) :=
  match simple.get "sku" with
  | some (JVal.str s) =>
    if s = "" then Except.ok m
    else
      match dictGet m s with
      | none => Except.ok m
      | some old =>
        match (simple.getD "gtins" (JVal.arr [JVal.null])).index0 with
        | Except.error e => Except.error e
        | Except.ok gtin =>
          let mid := (((simple.getD "offer" (JVal.obj [])).getD "merchant"
                        (JVal.obj [])).get "id").getD JVal.null
          match old with
          | JVal.obj fs =>
            Except.ok (dictSet m s (JVal.obj
              (dictSet (dictSet (dictSet fs "gtin" gtin) "merchant_id" mid) "sku" (JVal.str s))))
          | _ => Except.error "AttributeError"
  | _ => Except.ok m

/-- The merchant/shipper attachment for one resulting variant
(scraper_service.py lines 322-327): skipped when the variant's SKU is falsy
or the merchant table is empty; otherwise the table is subscripted directly
with the SKU, so an absent key raises `KeyError`. -/
def attachMerchant (table : List (String × MerchantInfo)) (simple : JVal) :
    Except String JVal :=
  match simple.get "sku" with
  | some sv =>
    if sv.truthy && !table.isEmpty then
      match sv with
      | JVal.str s =>
        match dictGet table s with
        | some mi =>
          match simple with
          | JVal.obj fs =>
            Except.ok (JVal.obj (dictSet (dictSet fs "merchant" (JVal.ofOptStr mi.merchant))
              "shipper" (JVal.ofOptStr mi.shipper)))
          | _ => Except.error "TypeError"
        | none => Except.error "KeyError"
      | _ => Except.error "KeyError"
    else Except.ok simple
  | none => Except.ok simple

/-- The in-order effectful traversal of the merchant-attachment loop: each
list element is processed left to right, and the first raise aborts. -/
def mapMExcept (f : JVal → Except String JVal) : List JVal → Except String (List JVal)
  | [] => Except.ok []
  | x :: xs =>
    match f x with
    | Except.error e => Except.error e
    | Except.ok y =>
      match mapMExcept f xs with
      | Except.error e => Except.error e
      | Except.ok ys => Except.ok (y :: ys)

/-- The synthetic single-variant entry of the empty-map fallback
(scraper_service.py lines 275-287). -/
def oneSizeSimple (pd : ProductData) (stockRecord : List (String × JVal)) : JVal :=
  JVal.obj
    [("size_label", JVal.str "One Size"),
     ("notes", JVal.str ""),
     ("available_Qnty", dictGetD stockRecord "stock" (JVal.str "")),
     ("availability", JVal.str "InStock"),
     ("long_distance", JVal.str "false"),
     ("price", dictGetD pd.display_price "trackingCurrentAmount" (JVal.str "")),
     ("gtin", JVal.ofOptStr pd.gtin),
     ("merchant_id", JVal.null),
     ("sku", dictGetD stockRecord "sku" (JVal.str ""))]

/-- Lines 254-256: the SKU-to-size-info map built from the crawled modern
size table, empty when the crawl produced nothing. -/
def skuMapOf (crawl_data : Option CrawlRaw) : List (String × JVal) :=
  match crawl_data with
  | some c => c.modernSizes.getD []
  | none => []

/-- The enrichment loop proper: `for simple in product_data.simples`, the
map state threaded left to right, aborting on the first raise. -/
def enrichLoop (simples : List JVal) (m : List (String × JVal)) :
    Except String (List (String × JVal)) :=
  match simples with
  | [] => Except.ok m
  | s :: rest =>
    match enrichSimple m s with
    | Except.error e => Except.error e
    | Except.ok m2 => enrichLoop rest m2

/-- Lines 258-269: the enrichment loop runs over the structured-source
variant entries only when the product data is present and its `simples`
list is truthy (non-empty). -/
def enrichRun (product_data : Option ProductData) (m : List (String × JVal)) :
    Except String (List (String × JVal)) :=
  match product_data with
  | some pd =>
    if !pd.simples.isEmpty then enrichLoop pd.simples m
    else Except.ok m
  | none => Except.ok m

/-- Lines 271-287: the enriched map's values replace the `simples` list when
the map is non-empty; otherwise the synthetic `One Size` entry is the whole
list. -/
def pd1Of (pd : ProductData) (html_data : HtmlData)
    (enriched : List (String × JVal)) : ProductData :=
  if enriched.length > 0 then { pd with simples := enriched.map (fun p => p.2) }
  else { pd with simples := [oneSizeSimple pd html_data.stockRecord] }

/-- Lines 289-291: the crawled product highlight overwrites the product
field when the crawl data carries that key. -/
def pd2Of (pd1 : ProductData) (crawl_data : Option CrawlRaw) : ProductData :=
  match crawl_data with
  | some c =>
    match c.productHighlight with
    | some h => { pd1 with product_highlight := some h }
    | none => pd1
  | none => pd1

/-- Lines 293-318: the `CrawlData` model assembled from the crawled dict.
Because the Python enrichment mutates the very dicts held by
`crawl_data['ModernSizes']`, the modern-size models read the enriched
values (the update only ever adds the keys `gtin`, `merchant_id`, `sku`,
which this model does not read). -/
def parsedCrawlOf (c : CrawlRaw) (enriched : List (String × JVal)) (url : String) :
    CrawlData :=
  { available_sizes := Crawl4AIScraper.normalize_size_data (c.availableSizes.getD []),
    modern_sizes := enriched.map (fun p =>
      (p.1, { size_label := p.2.getD "size_label" (JVal.str ""),
              notes := p.2.getD "notes" (JVal.str ""),
              availability := p.2.getD "availability" (JVal.str "InStock"),
              long_distance := p.2.getD "long_distance" (JVal.str "false") })),
    product_highlight := c.productHighlight,
    url := url }

/-- Replacement of the `simples` list on a product record (the in-place
Python assignment `product_data.simples = ...`). -/
def setSimples (p : ProductData) (ns : List JVal) : ProductData :=
  { p with simples := ns }

/-- `ZalandoScraperService._merge_responses` (scraper_service.py lines
244-344), assembled from the stages above.  The mutations of the Python
original are modelled by explicit state passing; raising paths return
`Except.error`.  A `None` product crashes on the `product_data.simples`
assignment of lines 272-287. -/
def mergeResponses (product_data : Option ProductData) (sku_data : Option SkuData)
    (crawl_data : Option CrawlRaw) (html_data : HtmlData) (url : String) :
    Except String APIProductResponse :=
  match enrichRun product_data (skuMapOf crawl_data) with
  | Except.error e => Except.error e
  | Except.ok enriched =>
    match product_data with
    | none => Except.error "AttributeError"
    | some pd =>
      let pd2 : ProductData := pd2Of (pd1Of pd html_data enriched) crawl_data
      match crawl_data with
      | none =>
        Except.ok { product_data := some pd2, sku_data := sku_data, crawl_data := none,
                    data_sources := ["api", "html"] }
      | some c =>
        match mapMExcept (attachMerchant html_data.merchantTable) pd2.simples with
        | Except.error e => Except.error e
        | Except.ok newSimples =>
          Except.ok { product_data := some (setSimples pd2 newSimples),
                      sku_data := sku_data, crawl_data := some (parsedCrawlOf c enriched url),
                      data_sources := ["api", "crawl", "html"] }

/-- Result adapter of the rendered-page task
(`Crawl4AIScraper.scrape_product_page`, crawl_scraper.py lines 120-151):
every internal failure is caught and becomes `None`, so this task never
hands an exception to the orchestrator. -/
def crawlTaskResult (internal : Except String (Option CrawlRaw)) : Option CrawlRaw :=
  match internal with
  | Except.ok d => d
  | Except.error _ => none

/-- The body of the raw-HTML task (`fetch_html_page_data`,
scraper_service.py lines 189-198).  Its `try` block first calls
`self.api_scraper.fetch_product_page_html(url)`, but `ZalandoAPIScraper`
(api_scraper.py) defines no method of that name, so the very first
statement raises `AttributeError`; the `except Exception` handler catches
it and returns a fresh exception object with the fixed message below,
which the orchestrator then recognises with `isinstance`.  The task can
therefore never produce data. -/
def fetch_html_page_data (_u : String) : Except String HtmlData :=
  Except.error "Failed to fetch or parse HTML page."

/-- `ZalandoScraperService.scrape_product` (scraper_service.py lines
25-104), with the network-dependent branch computations abstracted as the
outcomes they would produce: the structured-API thread either raises or
returns the parsed pair, the rendered-page crawl either fails internally or
yields its optional raw dict.  The raw-HTML thread runs
`fetch_html_page_data`, which always returns the caught-failure exception
(see above), so the third `isinstance` check fires on every request that
reaches the gather. -/
def scrape_product (url : String)
    (apiOutcome : Except String (Option ProductData × Option SkuData))
    (crawlInternal : Except String (Option CrawlRaw)) : ScrapeResponse :=
  if !ZalandoURLParser.is_valid_zalando_url url then
    { success := false, error := some "Invalid Zalando product URL" }
  else
    match ZalandoURLParser.extract_product_code url with
    | none => { success := false, error := some "Could not extract product code from URL" }
    | some product_code =>
      let di := ZalandoURLParser.extract_domain_info url
      let crawl_result := crawlTaskResult crawlInternal
      match apiOutcome with
      | Except.error e => { success := false, error := some ("API scraper error: " ++ e) }
      | Except.ok (pd, sd) =>
        match fetch_html_page_data url with
        | Except.error e => { success := false, error := some ("Crawler error: " ++ e) }
        | Except.ok html_data =>
          match mergeResponses pd sd crawl_result html_data url with
          | Except.error e => { success := false, error := some ("Unexpected error: " ++ e) }
          | Except.ok merged =>
            { success := true, data := some merged,
              metadata := some
                { product_code := product_code, domain := di.1, language := di.2,
                  sources_api := pd.isSome, sources_crawl := crawl_result.isSome } }

end ZalandoScraperService


lemma startsWithList_append_self (p t : List Char) : startsWithList p (p ++ t) = true := by
  induction p with
  | nil => rfl
  | cons a as ih => simp [startsWithList, ih]

lemma eq_append_drop_of_startsWithList {p l : List Char} (h : startsWithList p l = true) :
    l = p ++ l.drop p.length := by
  induction p generalizing l with
  | nil => simp
  | cons a as ih =>
    cases l with
    | nil => simp [startsWithList] at h
    | cons b bs =>
      simp only [startsWithList, Bool.and_eq_true, beq_iff_eq] at h
      obtain ⟨rfl, h2⟩ := h
      simpa using ih h2

lemma takeWhile_append_cons_of_neg {P : Char → Bool} {l1 : List Char} {c : Char} (l2 : List Char)
    (h1 : ∀ x ∈ l1, P x = true) (h2 : P c = false) :
    (l1 ++ c :: l2).takeWhile P = l1 := by
  induction l1 with
  | nil => simp [List.takeWhile, h2]
  | cons a as ih =>
    have ha : P a = true := h1 a (by simp)
    simp only [List.cons_append, List.takeWhile_cons, ha]
    simp [ih (fun x hx => h1 x (by simp [hx]))]

lemma dropWhile_append_cons_of_neg {P : Char → Bool} {l1 : List Char} {c : Char} (l2 : List Char)
    (h1 : ∀ x ∈ l1, P x = true) (h2 : P c = false) :
    (l1 ++ c :: l2).dropWhile P = c :: l2 := by
  induction l1 with
  | nil => simp [List.dropWhile, h2]
  | cons a as ih =>
    have ha : P a = true := h1 a (by simp)
    simp only [List.cons_append, List.dropWhile_cons, ha]
    simp [ih (fun x hx => h1 x (by simp [hx]))]

lemma startsWithList_map (f : Char → Char) {p l : List Char} (h : startsWithList p l = true) :
    startsWithList (p.map f) (l.map f) = true := by
  induction p generalizing l with
  | nil => rfl
  | cons a as ih =>
    cases l with
    | nil => simp [startsWithList] at h
    | cons b bs =>
      simp only [startsWithList, Bool.and_eq_true, beq_iff_eq] at h
      obtain ⟨rfl, h2⟩ := h
      simp [List.map, startsWithList, ih h2]

lemma containsList_map (f : Char → Char) {p l : List Char} (h : containsList p l = true) :
    containsList (p.map f) (l.map f) = true := by
  induction l with
  | nil =>
    cases p with
    | nil => rfl
    | cons a as => simp [containsList, startsWithList] at h
  | cons b bs ih =>
    simp only [containsList, Bool.or_eq_true] at h ⊢
    rcases h with h | h
    · exact Or.inl (startsWithList_map f h)
    · exact Or.inr (ih h)

lemma strContains_lower {s pat : String} (h : strContains s pat = true) :
    strContains (lowerStr s) (lowerStr pat) = true :=
  containsList_map Char.toLower h

namespace ZalandoURLParser

lemma parseRunDash_of_shape {s : List Char} (t : List Char) (hne : s ≠ [])
    (hal : ∀ c ∈ s, isAlnum c = true) :
    parseRunDash (s ++ '-' :: t) = some (s, t) := by
  unfold parseRunDash
  rw [takeWhile_append_cons_of_neg t hal (by decide),
    dropWhile_append_cons_of_neg t hal (by decide)]
  cases s with
  | nil => exact absurd rfl hne
  | cons a as => rfl

lemma parseRunDash_inv {l r t : List Char} (h : parseRunDash l = some (r, t)) :
    l = r ++ '-' :: t ∧ r ≠ [] ∧ ∀ c ∈ r, isAlnum c = true := by
  unfold parseRunDash at h
  split at h
  case _ run runs rest htw hdw =>
    obtain ⟨rfl, rfl⟩ : run :: runs = r ∧ rest = t := by
      simpa using h
    refine ⟨?_, by simp, ?_⟩
    · conv_lhs => rw [← List.takeWhile_append_dropWhile (p := isAlnum) (l := l)]
      rw [htw, hdw]
    · intro c hc
      exact List.mem_takeWhile_imp (htw ▸ hc)
  case _ => exact absurd h (by simp)

end ZalandoURLParser

/-- C9 (counterexample): the URL `https://www.zalando.it/ab-cd.html` has a
path ending in the two hyphen-joined alphanumeric segments `ab` and `cd`
immediately before the `.html` suffix (the decomposition is shown
explicitly), yet `extract_product_code` returns no code: the regex demands
a further hyphen *before* the two segments. -/
theorem extract_product_code_counterexample :
    "https://www.zalando.it/ab-cd.html".data
        = "https://www.zalando.it/".data ++ "ab".data ++ '-' :: "cd".data ++ ".html".data
    ∧ "ab".data.all ZalandoURLParser.isAlnum = true
    ∧ "cd".data.all ZalandoURLParser.isAlnum = true
    ∧ ZalandoURLParser.extract_product_code "https://www.zalando.it/ab-cd.html" = none :=
  ⟨by decide, by decide, by decide, by decide⟩

/-- C9 (amended): `extract_product_code` maps every URL that ends in a
hyphen, two nonempty hyphen-joined alphanumeric segments and the `.html`
suffix (terminating the URL string) to exactly those two segments
upper-cased; conversely, whenever it returns a code the URL has that shape,
so every other URL yields `None`.  The function is pure, hence
deterministic, and its output is an image of `Char.toUpper`. -/
theorem extract_product_code_amended :
    (∀ (url : String) (p s1 s2 : List Char),
      url.data = p ++ '-' :: s1 ++ '-' :: s2 ++ ".html".data →
      s1 ≠ [] → s2 ≠ [] →
      (∀ c ∈ s1, ZalandoURLParser.isAlnum c = true) →
      (∀ c ∈ s2, ZalandoURLParser.isAlnum c = true) →
      ZalandoURLParser.extract_product_code url
        = some (String.mk ((s1 ++ '-' :: s2).map Char.toUpper)))
  ∧ (∀ url : String, (ZalandoURLParser.extract_product_code url).isSome = true →
      ∃ p s1 s2 : List Char, s1 ≠ [] ∧ s2 ≠ [] ∧
        (∀ c ∈ s1, ZalandoURLParser.isAlnum c = true) ∧
        (∀ c ∈ s2, ZalandoURLParser.isAlnum c = true) ∧
        url.data = p ++ '-' :: s1 ++ '-' :: s2 ++ ".html".data) := by
  constructor
  · intro url p s1 s2 hurl h1 h2 ha1 ha2
    have hrev : url.data.reverse
        = ['l', 'm', 't', 'h', '.'] ++ (s2.reverse ++ '-' :: (s1.reverse ++ '-' :: p.reverse)) := by
      rw [hurl]
      have hd : ".html".data = ['.', 'h', 't', 'm', 'l'] := rfl
      simp [hd, List.reverse_append]
    have hx : ".html".data.reverse = ['l', 'm', 't', 'h', '.'] := rfl
    have e2 := ZalandoURLParser.parseRunDash_of_shape (s := s2.reverse)
      (s1.reverse ++ '-' :: p.reverse) (by simpa using h2)
      (fun c hc => ha2 c (by simpa using hc))
    have e1 := ZalandoURLParser.parseRunDash_of_shape (s := s1.reverse)
      p.reverse (by simpa using h1) (fun c hc => ha1 c (by simpa using hc))
    unfold ZalandoURLParser.extract_product_code
    rw [hrev, hx]
    simp [e2, e1, startsWithList]
  · intro url h
    unfold ZalandoURLParser.extract_product_code at h
    split at h
    case isTrue hsw =>
      split at h
      case h_2 => simp at h
      case h_1 pr run2 aft2 hp2 =>
        split at h
        case h_2 => simp at h
        case h_1 pr1 run1 rest1 hp1 =>
          obtain ⟨hL2, hne2, hal2⟩ := ZalandoURLParser.parseRunDash_inv hp2
          obtain ⟨hL1, hne1, hal1⟩ := ZalandoURLParser.parseRunDash_inv hp1
          have hrev0 : url.data.reverse
              = ".html".data.reverse ++ url.data.reverse.drop 5 := by
            simpa using eq_append_drop_of_startsWithList hsw
          refine ⟨rest1.reverse, run1.reverse, run2.reverse,
            by simpa using hne1, by simpa using hne2,
            fun c hc => hal1 c (by simpa using hc),
            fun c hc => hal2 c (by simpa using hc), ?_⟩
          have hrev1 : url.data.reverse
              = ".html".data.reverse ++ (run2 ++ '-' :: (run1 ++ '-' :: rest1)) := by
            rw [hrev0, hL2, hL1]
          have hd : ".html".data = ['.', 'h', 't', 'm', 'l'] := rfl
          calc url.data = url.data.reverse.reverse := by simp
          _ = rest1.reverse ++ '-' :: run1.reverse ++ '-' :: run2.reverse ++ ".html".data := by
              rw [hrev1]
              simp [hd, List.reverse_append]
    case isFalse => simp at h

/-- C10 (counterexample): the URL `https://zalando.de.evil.com/foo-ab-cd.html`
is accepted by `is_valid_zalando_url`, yet its host `zalando.de.evil.com`
does not belong to the accepted retailer domain set — it is neither equal to
any accepted domain nor a subdomain of one (no `.domain` suffix); the code
accepts it because it checks substring containment. -/
theorem is_valid_zalando_url_counterexample :
    ZalandoURLParser.is_valid_zalando_url "https://zalando.de.evil.com/foo-ab-cd.html" = true
    ∧ String.mk (ZalandoURLParser.removeWWW
        (ZalandoURLParser.netloc "https://zalando.de.evil.com/foo-ab-cd.html").data)
        = "zalando.de.evil.com"
    ∧ "zalando.de.evil.com" ∉ ZalandoURLParser.zalandoDomains
    ∧ ZalandoURLParser.zalandoDomains.all
        (fun d => !startsWithList ("." ++ d).data.reverse
          "zalando.de.evil.com".data.reverse) = true :=
  ⟨by decide, by decide, by decide, by decide⟩

/-- C10 (amended): `is_valid_zalando_url` accepts exactly the URLs that
start with the literal `http://` or `https://`, whose `www.`-stripped
netloc *contains* one of the eight accepted domain strings as a substring,
and on which the product-code pattern matches; and for every URL it
rejects, `scrape_product` returns the invalid-URL error envelope whatever
the source outcomes are — no fetch result is consulted. -/
theorem is_valid_zalando_url_amended :
    (∀ url : String, ZalandoURLParser.is_valid_zalando_url url = true ↔
      ((startsWithList "http://".data url.data = true
          ∨ startsWithList "https://".data url.data = true)
        ∧ (∃ d ∈ ZalandoURLParser.zalandoDomains,
            containsList d.data
              (ZalandoURLParser.removeWWW (ZalandoURLParser.netloc url).data) = true)
        ∧ (ZalandoURLParser.extract_product_code url).isSome = true))
  ∧ (∀ (url : String) (a : Except String (Option ZalandoScraperService.ProductData
        × Option ZalandoScraperService.SkuData))
      (c : Except String (Option ZalandoScraperService.CrawlRaw)),
      ZalandoURLParser.is_valid_zalando_url url = false →
      ZalandoScraperService.scrape_product url a c =
        { success := false, data := none,
          error := some "Invalid Zalando product URL", metadata := none }) := by
  constructor
  · intro url
    unfold ZalandoURLParser.is_valid_zalando_url
    simp [List.any_eq_true, and_assoc]
  · intro url a c hv
    unfold ZalandoScraperService.scrape_product
    rw [hv]
    rfl

/-- C5: legacy size-table availability classification
(`_normalize_size_data`).  Text containing the out-of-stock phrase
`Esaurito` classifies as out-of-stock; `"2 articoli disponibili"` gives
low-stock with quantity 2; `"1 articolo disponibile"` gives low-stock with
quantity 1; any classification that extracts a known quantity of at most 3
is low-stock; and text matching none of the recognized phrases defaults to
in-stock. -/
theorem classifyAvailability_spec :
    (∀ text : String, strContains text "Esaurito" = true →
      Crawl4AIScraper.classifyAvailability text
        = (Crawl4AIScraper.AvailabilityStatus.out_of_stock, none))
  ∧ Crawl4AIScraper.classifyAvailability "2 articoli disponibili"
      = (Crawl4AIScraper.AvailabilityStatus.low_stock, some 2)
  ∧ Crawl4AIScraper.classifyAvailability "1 articolo disponibile"
      = (Crawl4AIScraper.AvailabilityStatus.low_stock, some 1)
  ∧ (∀ (text : String) (st : Crawl4AIScraper.AvailabilityStatus) (q : ℕ),
      Crawl4AIScraper.classifyAvailability text = (st, some q) → q ≤ 3 →
      st = Crawl4AIScraper.AvailabilityStatus.low_stock)
  ∧ (∀ text : String,
      strContains (lowerStr text) "esaurito" = false →
      strContains (lowerStr text) "out of stock" = false →
      strContains (lowerStr text) "articoli disponibili" = false →
      strContains (lowerStr text) "available" = false →
      strContains (lowerStr text) "1 articolo disponibile" = false →
      Crawl4AIScraper.classifyAvailability text
        = (Crawl4AIScraper.AvailabilityStatus.in_stock, none)) := by
  refine ⟨?_, by decide, by decide, ?_, ?_⟩
  · intro text h
    have hlow : strContains (lowerStr text) "esaurito" = true := by
      have h2 := strContains_lower h
      have hl : lowerStr "Esaurito" = "esaurito" := by decide
      rwa [hl] at h2
    simp only [Crawl4AIScraper.classifyAvailability]
    rw [hlow]
    simp
  · intro text st q h hle
    simp only [Crawl4AIScraper.classifyAvailability] at h
    split at h
    · simp at h
    · split at h
      · split at h
        · injection h with h1 h2
          injection h2 with h2
          subst h2
          rw [← h1, if_pos hle]
        · simp at h
      · split at h
        · injection h with h1 h2
          rw [← h1]
        · simp at h
  · intro text h1 h2 h3 h4 h5
    simp only [Crawl4AIScraper.classifyAvailability]
    rw [h1, h2, h3, h4, h5]
    simp

lemma dictGet_map_value {α β : Type} (g : α → β) (m : List (String × α)) (k : String) :
    dictGet (m.map (fun p => (p.1, g p.2))) k = (dictGet m k).map g := by
  induction m with
  | nil => rfl
  | cons p rest ih =>
    obtain ⟨k1, v⟩ := p
    by_cases hk : k1 = k <;> simp [dictGet, hk, ih]

lemma dictGet_dictSet_self {α : Type} (m : List (String × α)) (k : String) (v : α) :
    dictGet (dictSet m k v) k = some v := by
  induction m with
  | nil => simp [dictSet, dictGet]
  | cons p rest ih =>
    obtain ⟨k1, v1⟩ := p
    by_cases hk : k1 = k <;> simp [dictSet, dictGet, hk, ih]

lemma dictGet_dictSet_ne {α : Type} {m : List (String × α)} {k k2 : String} (v : α)
    (h : k ≠ k2) : dictGet (dictSet m k2 v) k = dictGet m k := by
  induction m with
  | nil => simp [dictSet, dictGet, Ne.symm h]
  | cons p rest ih =>
    obtain ⟨k1, v1⟩ := p
    by_cases hk : k1 = k2
    · subst hk
      simp [dictSet, dictGet, Ne.symm h]
    · simp [dictSet, dictGet, hk, ih]

lemma mem_dictSet {α : Type} {m : List (String × α)} {k : String} {v : α} {p : String × α}
    (h : p ∈ dictSet m k v) : p = (k, v) ∨ p ∈ m := by
  induction m with
  | nil => simpa [dictSet] using h
  | cons q rest ih =>
    obtain ⟨k1, v1⟩ := q
    by_cases hk : k1 = k
    · subst hk
      simp only [dictSet, if_pos rfl] at h
      rcases List.mem_cons.mp h with h1 | h1
      · exact Or.inl h1
      · exact Or.inr (List.mem_cons.mpr (Or.inr h1))
    · simp only [dictSet, if_neg hk] at h
      rcases List.mem_cons.mp h with h1 | h1
      · exact Or.inr (List.mem_cons.mpr (Or.inl h1))
      · rcases ih h1 with h2 | h2
        · exact Or.inl h2
        · exact Or.inr (List.mem_cons.mpr (Or.inr h2))

/-- The keys of an association-list dict, in order. -/
def keysOf {α : Type} (m : List (String × α)) : List String := m.map Prod.fst

lemma keysOf_dictSet_of_mem {α : Type} {m : List (String × α)} {k : String} {w : α} (v : α)
    (h : dictGet m k = some w) : keysOf (dictSet m k v) = keysOf m := by
  induction m with
  | nil => simp [dictGet] at h
  | cons p rest ih =>
    obtain ⟨k1, v1⟩ := p
    by_cases hk : k1 = k
    · subst hk
      simp [dictSet, keysOf]
    · simp only [dictGet, if_neg hk] at h
      simp [dictSet, keysOf, hk] at ih ⊢
      exact ih h

lemma mergeResponses_ok_inv {pd : ZalandoScraperService.ProductData}
    {sd : Option ZalandoScraperService.SkuData} {c : Option ZalandoScraperService.CrawlRaw}
    {h : ZalandoScraperService.HtmlData} {u : String}
    {r : ZalandoScraperService.APIProductResponse}
    (hm : ZalandoScraperService.mergeResponses (some pd) sd c h u = Except.ok r) :
    ∃ enr, ZalandoScraperService.enrichRun (some pd) (ZalandoScraperService.skuMapOf c)
        = Except.ok enr ∧
      ((c = none ∧
          r = { product_data := some (ZalandoScraperService.pd2Of
                  (ZalandoScraperService.pd1Of pd h enr) none),
                sku_data := sd, crawl_data := none, data_sources := ["api", "html"] })
       ∨ (∃ cc ns, c = some cc ∧
            ZalandoScraperService.mapMExcept
              (ZalandoScraperService.attachMerchant h.merchantTable)
              (ZalandoScraperService.pd2Of (ZalandoScraperService.pd1Of pd h enr)
                (some cc)).simples
              = Except.ok ns ∧
            r = { product_data := some (ZalandoScraperService.setSimples
                    (ZalandoScraperService.pd2Of
                      (ZalandoScraperService.pd1Of pd h enr) (some cc)) ns),
                  sku_data := sd,
                  crawl_data := some (ZalandoScraperService.parsedCrawlOf cc enr u),
                  data_sources := ["api", "crawl", "html"] })) := by
  unfold ZalandoScraperService.mergeResponses at hm
  cases hE : ZalandoScraperService.enrichRun (some pd) (ZalandoScraperService.skuMapOf c) with
  | error e =>
    rw [hE] at hm
    exact absurd hm (by simp)
  | ok enr =>
    rw [hE] at hm
    refine ⟨enr, rfl, ?_⟩
    cases c with
    | none => exact Or.inl ⟨rfl, (Except.ok.inj hm).symm⟩
    | some cc =>
      conv at hm => lhs; whnf
      cases hN : ZalandoScraperService.mapMExcept
          (ZalandoScraperService.attachMerchant h.merchantTable)
          (ZalandoScraperService.pd2Of (ZalandoScraperService.pd1Of pd h enr)
            (some cc)).simples with
      | error e =>
        rw [hN] at hm
        exact absurd hm (by simp)
      | ok ns =>
        rw [hN] at hm
        exact Or.inr ⟨cc, ns, rfl, hN, (Except.ok.inj hm).symm⟩

lemma pd1Of_display_price (pd : ZalandoScraperService.ProductData)
    (h : ZalandoScraperService.HtmlData) (e : List (String × JVal)) :
    (ZalandoScraperService.pd1Of pd h e).display_price = pd.display_price := by
  unfold ZalandoScraperService.pd1Of
  split <;> rfl

lemma pd2Of_display_price (p : ZalandoScraperService.ProductData)
    (c : Option ZalandoScraperService.CrawlRaw) :
    (ZalandoScraperService.pd2Of p c).display_price = p.display_price := by
  cases c with
  | none => rfl
  | some cc =>
    simp only [ZalandoScraperService.pd2Of]
    cases hph : cc.productHighlight with
    | none => rfl
    | some hl => rfl

lemma pd2Of_simples (p : ZalandoScraperService.ProductData)
    (c : Option ZalandoScraperService.CrawlRaw) :
    (ZalandoScraperService.pd2Of p c).simples = p.simples := by
  cases c with
  | none => rfl
  | some cc =>
    simp only [ZalandoScraperService.pd2Of]
    cases hph : cc.productHighlight with
    | none => rfl
    | some hl => rfl

lemma setSimples_display_price (p : ZalandoScraperService.ProductData) (ns : List JVal) :
    (ZalandoScraperService.setSimples p ns).display_price = p.display_price := rfl

lemma setSimples_simples (p : ZalandoScraperService.ProductData) (ns : List JVal) :
    (ZalandoScraperService.setSimples p ns).simples = ns := rfl

/-- C4: the derived tracking discount-percentage facet equals
`round(discount / (current + discount), 2)` when both operands are present
and the current amount is positive, and equals 0 when the current amount is
not positive or either operand is absent; in particular current 90 and
discount 10 give 0.10, and current 0 with discount 10 gives 0. -/
theorem trackingDiscountPercentage_spec :
    (∀ c d : ℚ, 0 < c →
      ZalandoScraperService.trackingDiscountPercentage (some c) (some d)
        = ZalandoScraperService.pyRound2 (d / (c + d)))
  ∧ (∀ c d : ℚ, c ≤ 0 →
      ZalandoScraperService.trackingDiscountPercentage (some c) (some d) = 0)
  ∧ (∀ d : Option ℚ, ZalandoScraperService.trackingDiscountPercentage none d = 0)
  ∧ (∀ c : Option ℚ, ZalandoScraperService.trackingDiscountPercentage c none = 0)
  ∧ ZalandoScraperService.trackingDiscountPercentage (some 90) (some 10) = 1 / 10
  ∧ ZalandoScraperService.trackingDiscountPercentage (some 0) (some 10) = 0 := by
  refine ⟨?_, ?_, ?_, ?_, ?_, ?_⟩
  · intro c d hc
    simp [ZalandoScraperService.trackingDiscountPercentage, hc]
  · intro c d hc
    simp [ZalandoScraperService.trackingDiscountPercentage, if_neg (not_lt.mpr hc)]
  · intro d
    cases d <;> rfl
  · intro c
    cases c <;> rfl
  · norm_num [ZalandoScraperService.trackingDiscountPercentage,
      ZalandoScraperService.pyRound2, ZalandoScraperService.roundHalfEven]
  · simp [ZalandoScraperService.trackingDiscountPercentage]

/-- C4 witness: the main case applied at current 90, discount 10. -/
theorem trackingDiscountPercentage_spec_witness :
    (0 : ℚ) < 90 ∧ ZalandoScraperService.trackingDiscountPercentage (some 90) (some 10)
      = ZalandoScraperService.pyRound2 (10 / (90 + 10)) :=
  ⟨by norm_num, trackingDiscountPercentage_spec.1 90 10 (by norm_num)⟩

/-- C3: the ÷100 normalization divides a dict facet's numeric minor-unit
amount by 100 exactly once — a facet keyed anywhere in the display-price
map comes out with amount `a / 100`, and an input amount of 12990 comes out
as 129.90 — and no second division happens in the same request: the merge
step returns the product's display-price map unchanged. -/
theorem displayPrice_normalizedOnce_spec :
    (∀ (dp : List (String × JVal)) (k : String) (fs : List (String × JVal)) (a : ℚ),
      dictGet dp k = some (JVal.obj fs) → dictGet fs "amount" = some (JVal.num a) →
      dictGet (ZalandoScraperService.normalizeDisplayPrice dp) k
        = some (JVal.obj (dictSet fs "amount" (JVal.num (a / 100)))))
  ∧ dictGet (ZalandoScraperService.normalizeDisplayPrice
        [("original", JVal.obj [("amount", JVal.num 12990)])]) "original"
      = some (JVal.obj [("amount", JVal.num (1299 / 10))])
  ∧ (∀ (pd : ZalandoScraperService.ProductData) (sd : Option ZalandoScraperService.SkuData)
      (c : Option ZalandoScraperService.CrawlRaw) (h : ZalandoScraperService.HtmlData)
      (u : String) (r : ZalandoScraperService.APIProductResponse)
      (pdOut : ZalandoScraperService.ProductData),
      ZalandoScraperService.mergeResponses (some pd) sd c h u = Except.ok r →
      r.product_data = some pdOut → pdOut.display_price = pd.display_price) := by
  refine ⟨?_, ?_, ?_⟩
  · intro dp k fs a h1 h2
    unfold ZalandoScraperService.normalizeDisplayPrice
    rw [dictGet_map_value, h1]
    simp [ZalandoScraperService.normalizeFacet, h2]
  · show some (ZalandoScraperService.normalizeFacet (JVal.obj [("amount", JVal.num 12990)]))
        = some (JVal.obj [("amount", JVal.num (1299 / 10))])
    simp only [ZalandoScraperService.normalizeFacet, dictGet, if_pos rfl, dictSet]
    norm_num
  · intro pd sd c h u r pdOut hm hr
    obtain ⟨enr, hE, hcase⟩ := mergeResponses_ok_inv hm
    rcases hcase with ⟨hc, rfl⟩ | ⟨cc, ns, hc, hN, rfl⟩
    · obtain rfl := Option.some.inj hr
      rw [pd2Of_display_price, pd1Of_display_price]
    · obtain rfl := Option.some.inj hr
      rw [setSimples_display_price, pd2Of_display_price, pd1Of_display_price]

/-- C3 witness: the general facet statement applied to a one-facet display
price with amount 12990. -/
theorem displayPrice_normalizedOnce_spec_witness :
    dictGet (ZalandoScraperService.normalizeDisplayPrice
        [("price", JVal.obj [("amount", JVal.num 12990)])]) "price"
      = some (JVal.obj (dictSet [("amount", JVal.num 12990)] "amount"
          (JVal.num (12990 / 100)))) :=
  displayPrice_normalizedOnce_spec.1 [("price", JVal.obj [("amount", JVal.num 12990)])]
    "price" [("amount", JVal.num 12990)] 12990 rfl rfl

lemma enrichSimple_nil (s : JVal) : ZalandoScraperService.enrichSimple [] s = Except.ok [] := by
  unfold ZalandoScraperService.enrichSimple
  cases hsk : s.get "sku" with
  | none => rfl
  | some v =>
    cases v with
    | str t =>
      by_cases ht : t = ""
      · simp [ht]
      · simp only [if_neg ht]
        rfl
    | null => rfl
    | num q => rfl
    | arr xs => rfl
    | obj fs => rfl

lemma enrichLoop_nil (l : List JVal) :
    ZalandoScraperService.enrichLoop l [] = Except.ok [] := by
  induction l with
  | nil => rfl
  | cons x xs ih =>
    simp only [ZalandoScraperService.enrichLoop, enrichSimple_nil]
    exact ih

lemma enrichRun_nilMap (p : Option ZalandoScraperService.ProductData) :
    ZalandoScraperService.enrichRun p [] = Except.ok [] := by
  cases p with
  | none => rfl
  | some pd =>
    unfold ZalandoScraperService.enrichRun
    simp [enrichLoop_nil]

lemma mapMExcept_singleton {f : JVal → Except String JVal} {x : JVal} {l : List JVal}
    (h : ZalandoScraperService.mapMExcept f [x] = Except.ok l) :
    ∃ y, f x = Except.ok y ∧ l = [y] := by
  cases hfx : f x with
  | error e => simp [ZalandoScraperService.mapMExcept, hfx] at h
  | ok y =>
    refine ⟨y, rfl, ?_⟩
    simp only [ZalandoScraperService.mapMExcept, hfx] at h
    exact (Except.ok.inj h).symm

lemma attachMerchant_get_of_ne {t : List (String × ZalandoScraperService.MerchantInfo)}
    {x y : JVal} (hxy : ZalandoScraperService.attachMerchant t x = Except.ok y) (k : String)
    (hk1 : k ≠ "merchant") (hk2 : k ≠ "shipper") : y.get k = x.get k := by
  unfold ZalandoScraperService.attachMerchant at hxy
  cases hsk : x.get "sku" with
  | none =>
    rw [hsk] at hxy
    rw [← Except.ok.inj hxy]
  | some sv =>
    rw [hsk] at hxy
    dsimp only at hxy
    by_cases hc : (sv.truthy && !t.isEmpty) = true
    · rw [if_pos hc] at hxy
      cases sv with
      | str s =>
        dsimp only at hxy
        cases hmi : dictGet t s with
        | none => rw [hmi] at hxy; exact Except.noConfusion hxy
        | some mi =>
          rw [hmi] at hxy
          dsimp only at hxy
          cases x with
          | obj fs =>
            dsimp only at hxy
            have hy := (Except.ok.inj hxy).symm
            subst hy
            show dictGet (dictSet (dictSet fs "merchant" (JVal.ofOptStr mi.merchant))
                "shipper" (JVal.ofOptStr mi.shipper)) k = JVal.get (JVal.obj fs) k
            rw [dictGet_dictSet_ne _ hk2, dictGet_dictSet_ne _ hk1]
            rfl
          | null => exact Except.noConfusion hxy
          | str s2 => exact Except.noConfusion hxy
          | num q => exact Except.noConfusion hxy
          | arr xs => exact Except.noConfusion hxy
      | null => exact Except.noConfusion hxy
      | num q => exact Except.noConfusion hxy
      | arr xs => exact Except.noConfusion hxy
      | obj fs2 => exact Except.noConfusion hxy
    · rw [if_neg hc] at hxy
      rw [← Except.ok.inj hxy]

/-- C6: whenever the SKU-to-variant map built from the modern size table is
empty, the merged product's variant list is exactly one synthesized entry
labeled `One Size`, whose stock quantity is the raw-markup live stock
count, whose price is the product's tracking current price, and whose SKU
is the raw-markup SKU. -/
theorem mergeResponses_oneSize_spec :
    ∀ (pd : ZalandoScraperService.ProductData) (sd : Option ZalandoScraperService.SkuData)
      (c : Option ZalandoScraperService.CrawlRaw) (h : ZalandoScraperService.HtmlData)
      (u : String) (r : ZalandoScraperService.APIProductResponse)
      (pdOut : ZalandoScraperService.ProductData),
      ZalandoScraperService.skuMapOf c = [] →
      ZalandoScraperService.mergeResponses (some pd) sd c h u = Except.ok r →
      r.product_data = some pdOut →
      pdOut.simples.length = 1 ∧
      ∀ v ∈ pdOut.simples,
        v.get "size_label" = some (JVal.str "One Size") ∧
        v.get "available_Qnty" = some (dictGetD h.stockRecord "stock" (JVal.str "")) ∧
        v.get "price"
          = some (dictGetD pd.display_price "trackingCurrentAmount" (JVal.str "")) ∧
        v.get "sku" = some (dictGetD h.stockRecord "sku" (JVal.str "")) := by
  intro pd sd c h u r pdOut hmap hm hr
  obtain ⟨enr, hE, hcase⟩ := mergeResponses_ok_inv hm
  rw [hmap] at hE
  have henr : enr = [] := Except.ok.inj (hE.symm.trans (enrichRun_nilMap (some pd)))
  subst henr
  have hpd1s : (ZalandoScraperService.pd1Of pd h []).simples
      = [ZalandoScraperService.oneSizeSimple pd h.stockRecord] := by
    unfold ZalandoScraperService.pd1Of
    simp
  rcases hcase with ⟨hc, rfl⟩ | ⟨cc, ns, hc, hN, rfl⟩
  · obtain rfl := Option.some.inj hr
    constructor
    · rw [pd2Of_simples, hpd1s]
      rfl
    · intro v hv
      rw [pd2Of_simples, hpd1s] at hv
      have hv2 : v = ZalandoScraperService.oneSizeSimple pd h.stockRecord := by
        simpa using hv
      subst hv2
      exact ⟨rfl, rfl, rfl, rfl⟩
  · obtain rfl := Option.some.inj hr
    rw [pd2Of_simples, hpd1s] at hN
    obtain ⟨y, hy, rfl⟩ := mapMExcept_singleton hN
    constructor
    · rfl
    · intro v hv
      have hv2 : v = y := by
        simpa [ZalandoScraperService.setSimples] using hv
      subst hv2
      refine ⟨?_, ?_, ?_, ?_⟩
      · rw [attachMerchant_get_of_ne hy "size_label" (by decide) (by decide)]
        rfl
      · rw [attachMerchant_get_of_ne hy "available_Qnty" (by decide) (by decide)]
        rfl
      · rw [attachMerchant_get_of_ne hy "price" (by decide) (by decide)]
        rfl
      · rw [attachMerchant_get_of_ne hy "sku" (by decide) (by decide)]
        rfl

/-- C6 witness: the theorem applied to a single-variant merge with no crawl
data, a tracking price of 90 and the raw-markup stock record. -/
theorem mergeResponses_oneSize_spec_witness :
    (ZalandoScraperService.pd2Of (ZalandoScraperService.pd1Of
        ({ display_price := [("trackingCurrentAmount", JVal.num 90)], gtin := some "G" } :
          ZalandoScraperService.ProductData)
        ({ stockRecord := [("sku", JVal.str "SK1"), ("stock", JVal.num 4)] } :
          ZalandoScraperService.HtmlData) []) none).simples.length = 1 :=
  (mergeResponses_oneSize_spec
    { display_price := [("trackingCurrentAmount", JVal.num 90)], gtin := some "G" }
    none none { stockRecord := [("sku", JVal.str "SK1"), ("stock", JVal.num 4)] } "u"
    { product_data := some (ZalandoScraperService.pd2Of (ZalandoScraperService.pd1Of
        { display_price := [("trackingCurrentAmount", JVal.num 90)], gtin := some "G" }
        { stockRecord := [("sku", JVal.str "SK1"), ("stock", JVal.num 4)] } []) none),
      sku_data := none, crawl_data := none, data_sources := ["api", "html"] }
    (ZalandoScraperService.pd2Of (ZalandoScraperService.pd1Of
        { display_price := [("trackingCurrentAmount", JVal.num 90)], gtin := some "G" }
        { stockRecord := [("sku", JVal.str "SK1"), ("stock", JVal.num 4)] } []) none)
    rfl rfl rfl).1

lemma mapMExcept_mem {f : JVal → Except String JVal} {l l2 : List JVal}
    (h : ZalandoScraperService.mapMExcept f l = Except.ok l2) :
    ∀ y ∈ l2, ∃ x ∈ l, f x = Except.ok y := by
  induction l generalizing l2 with
  | nil =>
    obtain rfl : ([] : List JVal) = l2 := Except.ok.inj h
    intro y hy
    simp at hy
  | cons x xs ih =>
    unfold ZalandoScraperService.mapMExcept at h
    cases hfx : f x with
    | error e => rw [hfx] at h; exact Except.noConfusion h
    | ok y0 =>
      rw [hfx] at h
      cases hrest : ZalandoScraperService.mapMExcept f xs with
      | error e => rw [hrest] at h; exact Except.noConfusion h
      | ok ys =>
        rw [hrest] at h
        obtain rfl : y0 :: ys = l2 := Except.ok.inj h
        intro y hy
        rcases List.mem_cons.mp hy with h1 | h1
        · exact ⟨x, by simp, h1 ▸ hfx⟩
        · obtain ⟨x2, hx2, hfx2⟩ := ih hrest y h1
          exact ⟨x2, by simp [hx2], hfx2⟩

lemma attachMerchant_fields {t : List (String × ZalandoScraperService.MerchantInfo)}
    {x y : JVal} {s : String} (hxy : ZalandoScraperService.attachMerchant t x = Except.ok y)
    (hs : y.get "sku" = some (JVal.str s)) (hne : s ≠ "") (ht : t ≠ []) :
    ∃ mi, dictGet t s = some mi ∧
      y.get "merchant" = some (JVal.ofOptStr mi.merchant) ∧
      y.get "shipper" = some (JVal.ofOptStr mi.shipper) := by
  have hsk : x.get "sku" = some (JVal.str s) := by
    rw [← attachMerchant_get_of_ne hxy "sku" (by decide) (by decide)]
    exact hs
  have hcond : ((JVal.str s).truthy && !t.isEmpty) = true := by
    simp [JVal.truthy, hne, ht]
  unfold ZalandoScraperService.attachMerchant at hxy
  rw [hsk] at hxy
  try dsimp only at hxy
  rw [if_pos hcond] at hxy
  try dsimp only at hxy
  cases hmi : dictGet t s with
  | none => rw [hmi] at hxy; exact Except.noConfusion hxy
  | some mi =>
    rw [hmi] at hxy
    dsimp only at hxy
    cases x with
    | obj fs =>
      dsimp only at hxy
      obtain rfl := Except.ok.inj hxy
      refine ⟨mi, rfl, ?_, ?_⟩
      · show dictGet (dictSet (dictSet fs "merchant" (JVal.ofOptStr mi.merchant))
            "shipper" (JVal.ofOptStr mi.shipper)) "merchant"
            = some (JVal.ofOptStr mi.merchant)
        rw [dictGet_dictSet_ne _ (by decide), dictGet_dictSet_self]
      · show dictGet (dictSet (dictSet fs "merchant" (JVal.ofOptStr mi.merchant))
            "shipper" (JVal.ofOptStr mi.shipper)) "shipper"
            = some (JVal.ofOptStr mi.shipper)
        rw [dictGet_dictSet_self]
    | null => exact Except.noConfusion hxy
    | str s2 => exact Except.noConfusion hxy
    | num q => exact Except.noConfusion hxy
    | arr xs => exact Except.noConfusion hxy

/-- C8 (counterexample): a merge at a well-formed product URL whose crawl
data is present and whose only resulting variant carries the SKU `S1`,
while the non-empty raw-markup merchant table only knows the key `OTHER`,
does not complete: the direct subscript `html_merchant_data[sku]` raises
`KeyError` and the whole merge fails, instead of leaving the variant
without merchant data as the claim states. -/
theorem attachMerchant_keyerror_counterexample :
    dictGet [("OTHER", ({ merchant := some "m" } : ZalandoScraperService.MerchantInfo))]
        "S1" = none
    ∧ ZalandoScraperService.mergeResponses
        (some { simples := [JVal.obj
            [("sku", JVal.str "S1"), ("gtins", JVal.arr [JVal.str "g1"])]] })
        none
        (some { modernSizes := some [("S1", JVal.obj [("size_label", JVal.str "M")])] })
        { merchantTable := [("OTHER", { merchant := some "m" })] }
        "https://www.zalando.it/acdc-calze-mehrfarbig-a9182f001-t11.html"
      = Except.error "KeyError" :=
  ⟨rfl, rfl⟩

/-- C8 (amended): the merchant-attachment loop runs only inside the
crawl-data branch of the merge.  When crawl data is present and the merge
completes, every resulting variant with a truthy string SKU has merchant
and shipper attached from the (non-empty) raw-markup merchant table, the
SKU necessarily being present there; when such a SKU is absent from a
non-empty table, the attachment raises `KeyError` (so the merge fails with
the unexpected-error envelope) instead of completing without the data; and
when crawl data is absent the loop is skipped entirely: the merge
completes and every resulting variant is left without merchant and shipper
keys, whatever the merchant table holds. -/
theorem attachMerchant_amended :
    (∀ (pd : ZalandoScraperService.ProductData) (sd : Option ZalandoScraperService.SkuData)
      (cc : ZalandoScraperService.CrawlRaw) (h : ZalandoScraperService.HtmlData)
      (u : String) (r : ZalandoScraperService.APIProductResponse)
      (pdOut : ZalandoScraperService.ProductData),
      ZalandoScraperService.mergeResponses (some pd) sd (some cc) h u = Except.ok r →
      r.product_data = some pdOut →
      ∀ v ∈ pdOut.simples, ∀ s : String, v.get "sku" = some (JVal.str s) → s ≠ "" →
        h.merchantTable ≠ [] →
        ∃ mi, dictGet h.merchantTable s = some mi ∧
          v.get "merchant" = some (JVal.ofOptStr mi.merchant) ∧
          v.get "shipper" = some (JVal.ofOptStr mi.shipper))
  ∧ (∀ (t : List (String × ZalandoScraperService.MerchantInfo)) (x : JVal) (s : String),
      x.get "sku" = some (JVal.str s) → s ≠ "" → t ≠ [] → dictGet t s = none →
      ZalandoScraperService.attachMerchant t x = Except.error "KeyError")
  ∧ (∀ (pd : ZalandoScraperService.ProductData) (sd : Option ZalandoScraperService.SkuData)
      (h : ZalandoScraperService.HtmlData) (u : String),
      ∃ r, ZalandoScraperService.mergeResponses (some pd) sd none h u = Except.ok r ∧
        ∀ pdOut : ZalandoScraperService.ProductData, r.product_data = some pdOut →
          ∀ v ∈ pdOut.simples, v.get "merchant" = none ∧ v.get "shipper" = none) := by
  refine ⟨?_, ?_, ?_⟩
  · intro pd sd cc h u r pdOut hm hr v hv s hsku hsne htne
    obtain ⟨enr, hE, hcase⟩ := mergeResponses_ok_inv hm
    rcases hcase with ⟨hc, _⟩ | ⟨cc2, ns, hc, hN, rfl⟩
    · exact absurd hc (by simp)
    · obtain rfl := Option.some.inj hr
      rw [setSimples_simples] at hv
      obtain ⟨x, _, hfx⟩ := mapMExcept_mem hN v hv
      exact attachMerchant_fields hfx hsku hsne htne
  · intro t x s hsk hne ht hmi
    have hcond : ((JVal.str s).truthy && !t.isEmpty) = true := by
      simp [JVal.truthy, hne, ht]
    unfold ZalandoScraperService.attachMerchant
    rw [hsk]
    try dsimp only
    rw [if_pos hcond]
    try dsimp only
    rw [hmi]
  · intro pd sd h u
    refine ⟨{ product_data := some (ZalandoScraperService.pd2Of
                (ZalandoScraperService.pd1Of pd h []) none),
              sku_data := sd, crawl_data := none,
              data_sources := ["api", "html"] }, ?_, ?_⟩
    · unfold ZalandoScraperService.mergeResponses
      rw [show ZalandoScraperService.skuMapOf none = [] from rfl,
          enrichRun_nilMap (some pd)]
    · intro pdOut hr v hv
      obtain rfl := Option.some.inj hr
      rw [pd2Of_simples] at hv
      have hpd1s : (ZalandoScraperService.pd1Of pd h []).simples
          = [ZalandoScraperService.oneSizeSimple pd h.stockRecord] := by
        unfold ZalandoScraperService.pd1Of
        simp
      rw [hpd1s] at hv
      have hv2 : v = ZalandoScraperService.oneSizeSimple pd h.stockRecord := by
        simpa using hv
      subst hv2
      exact ⟨rfl, rfl⟩

/-- C8 witness: the raising half applied at a concrete variant with SKU
`S1` and a merchant table that only knows `OTHER`. -/
theorem attachMerchant_amended_witness :
    ZalandoScraperService.attachMerchant
        [("OTHER", ({ merchant := some "m" } : ZalandoScraperService.MerchantInfo))]
        (JVal.obj [("sku", JVal.str "S1")])
      = Except.error "KeyError" :=
  attachMerchant_amended.2.1 [("OTHER", { merchant := some "m" })]
    (JVal.obj [("sku", JVal.str "S1")]) "S1" rfl (by decide) (by simp) rfl

lemma extract_isSome_of_valid {url : String}
    (hv : ZalandoURLParser.is_valid_zalando_url url = true) :
    (ZalandoURLParser.extract_product_code url).isSome = true := by
  unfold ZalandoURLParser.is_valid_zalando_url at hv
  simp only [Bool.and_eq_true] at hv
  exact hv.2

/-- C1: if any of the three concurrently launched source tasks fails, the
whole request fails — `scrape_product` returns an envelope with
`success=False`, an error string and no product record — and a record is
returned only when all three branches succeed, so no partial or degraded
record is ever returned.  In this code the raw-HTML task can never
succeed: `ZalandoAPIScraper` defines no `fetch_product_page_html`, so
`fetch_html_page_data` always returns the caught-failure exception and the
third `isinstance` check aborts every request that reaches the gather.
Hence every envelope, whatever the URL and the other two branch outcomes,
has `success=False`, an error string and no data: in particular every
request with a failed branch fails, and no product record — degraded or
otherwise — is ever returned. -/
theorem scrape_product_branch_failure_spec :
    ∀ (url : String)
      (a : Except String (Option ZalandoScraperService.ProductData
        × Option ZalandoScraperService.SkuData))
      (c : Except String (Option ZalandoScraperService.CrawlRaw)),
      ZalandoScraperService.fetch_html_page_data url
        = Except.error "Failed to fetch or parse HTML page."
      ∧ (ZalandoScraperService.scrape_product url a c).success = false
      ∧ (ZalandoScraperService.scrape_product url a c).data = none
      ∧ (ZalandoScraperService.scrape_product url a c).error.isSome = true := by
  intro url a c
  refine ⟨rfl, ?_⟩
  by_cases hv : ZalandoURLParser.is_valid_zalando_url url = true
  · obtain ⟨code, hcode⟩ := Option.isSome_iff_exists.mp (extract_isSome_of_valid hv)
    cases a with
    | error e =>
      unfold ZalandoScraperService.scrape_product
      rw [hv, hcode]
      exact ⟨rfl, rfl, rfl⟩
    | ok p =>
      obtain ⟨pd, sd⟩ := p
      unfold ZalandoScraperService.scrape_product
      rw [hv, hcode]
      exact ⟨rfl, rfl, rfl⟩
  · have hv2 : ZalandoURLParser.is_valid_zalando_url url = false := by
      simpa using hv
    unfold ZalandoScraperService.scrape_product
    rw [hv2]
    exact ⟨rfl, rfl, rfl⟩

/-- C1 witness: the envelope read off at a concrete request with a failing
structured-API branch on a valid product URL. -/
theorem scrape_product_branch_failure_spec_witness :
    (ZalandoScraperService.scrape_product
        "https://www.zalando.it/acdc-calze-mehrfarbig-a9182f001-t11.html"
        (Except.error "boom") (Except.ok none)).success = false
    ∧ (ZalandoScraperService.scrape_product
        "https://www.zalando.it/acdc-calze-mehrfarbig-a9182f001-t11.html"
        (Except.error "boom") (Except.ok none)).data = none :=
  ⟨(scrape_product_branch_failure_spec
      "https://www.zalando.it/acdc-calze-mehrfarbig-a9182f001-t11.html"
      (Except.error "boom") (Except.ok none)).2.1,
   (scrape_product_branch_failure_spec
      "https://www.zalando.it/acdc-calze-mehrfarbig-a9182f001-t11.html"
      (Except.error "boom") (Except.ok none)).2.2.1⟩

/-- C7: for every size-input block, availability is `OutOfStock` exactly
when the note contains the (case-sensitive) out-of-stock phrase and
`InStock` otherwise; the symbolic stock string is `"0"` when out of stock,
the literal parsed count when a numeric phrase matched, `"1"` for the
single-item phrase, and otherwise the at-least-two sentinel `"+2"`; and the
block record carries exactly these two values. -/
theorem extract_detailed_skus_stock_spec :
    (∀ note : String,
      ZalandoCrawl4AIScraper.noteAvailability note = "OutOfStock"
        ↔ strContains note "Esaurito" = true)
  ∧ (∀ note : String, strContains note "Esaurito" = true →
      ZalandoCrawl4AIScraper.availableQntyStr note = "0")
  ∧ (∀ (note : String) (q : ℕ), strContains note "Esaurito" = false →
      ZalandoCrawl4AIScraper.extractQty note = some q →
      ZalandoCrawl4AIScraper.availableQntyStr note = toString q)
  ∧ (∀ note : String, strContains note "Esaurito" = false →
      ZalandoCrawl4AIScraper.extractQty note = none →
      strContains (ZalandoCrawl4AIScraper.noteCleared note) "1 articolo disponibile" = true →
      ZalandoCrawl4AIScraper.availableQntyStr note = "1")
  ∧ (∀ note : String, strContains note "Esaurito" = false →
      ZalandoCrawl4AIScraper.extractQty note = none →
      strContains (ZalandoCrawl4AIScraper.noteCleared note) "1 articolo disponibile" = false →
      ZalandoCrawl4AIScraper.availableQntyStr note = "+2")
  ∧ (∀ label note : String,
      (ZalandoCrawl4AIScraper.sizeBlockRecord label note).get "availability"
        = some (JVal.str (ZalandoCrawl4AIScraper.noteAvailability note))
      ∧ (ZalandoCrawl4AIScraper.sizeBlockRecord label note).get "available_Qnty"
        = some (JVal.str (ZalandoCrawl4AIScraper.availableQntyStr note))) := by
  have hav : ∀ note : String, strContains note "Esaurito" = false →
      ZalandoCrawl4AIScraper.noteAvailability note = "InStock" := by
    intro note hno
    simp [ZalandoCrawl4AIScraper.noteAvailability, hno]
  refine ⟨?_, ?_, ?_, ?_, ?_, ?_⟩
  · intro note
    unfold ZalandoCrawl4AIScraper.noteAvailability
    by_cases hc : strContains note "Esaurito" = true
    · simp [hc]
    · simp [hc]
  · intro note hyes
    unfold ZalandoCrawl4AIScraper.availableQntyStr
    rw [if_pos (by simp [ZalandoCrawl4AIScraper.noteAvailability, hyes])]
  · intro note q hno hq
    unfold ZalandoCrawl4AIScraper.availableQntyStr
    rw [if_neg (by simp [hav note hno]), hq]
  · intro note hno hq hone
    unfold ZalandoCrawl4AIScraper.availableQntyStr
    rw [if_neg (by simp [hav note hno]), hq, if_pos hone]
  · intro note hno hq hone
    unfold ZalandoCrawl4AIScraper.availableQntyStr
    rw [if_neg (by simp [hav note hno]), hq]
    dsimp only
    rw [if_neg (by simp [hone])]
    rw [ite_self]
  · intro label note
    exact ⟨rfl, rfl⟩

/-- C7 witness: the out-of-stock case applied at the note `Esaurito`. -/
theorem extract_detailed_skus_stock_spec_witness :
    strContains "Esaurito" "Esaurito" = true
    ∧ ZalandoCrawl4AIScraper.availableQntyStr "Esaurito" = "0" :=
  ⟨by decide, extract_detailed_skus_stock_spec.2.1 "Esaurito" (by decide)⟩

/-- The enrichment invariant: every map value either lacks a `sku` field or
carries exactly its own key as the `sku`. -/
def SkuInv (m : List (String × JVal)) : Prop :=
  ∀ p ∈ m, (p.2 : JVal).get "sku" = none ∨ (p.2).get "sku" = some (JVal.str p.1)

lemma enrichSimple_inv {m m2 : List (String × JVal)} {sv : JVal}
    (hinv : SkuInv m) (h : ZalandoScraperService.enrichSimple m sv = Except.ok m2) :
    SkuInv m2 ∧ keysOf m2 = keysOf m := by
  unfold ZalandoScraperService.enrichSimple at h
  cases hsk : sv.get "sku" with
  | none =>
    rw [hsk] at h
    obtain rfl := Except.ok.inj h
    exact ⟨hinv, rfl⟩
  | some v =>
    rw [hsk] at h
    cases v with
    | str t =>
      try dsimp only at h
      by_cases ht : t = ""
      · rw [if_pos ht] at h
        obtain rfl := Except.ok.inj h
        exact ⟨hinv, rfl⟩
      · rw [if_neg ht] at h
        cases hget : dictGet m t with
        | none =>
          rw [hget] at h
          obtain rfl := Except.ok.inj h
          exact ⟨hinv, rfl⟩
        | some old =>
          rw [hget] at h
          try dsimp only at h
          cases hidx : (sv.getD "gtins" (JVal.arr [JVal.null])).index0 with
          | error e => rw [hidx] at h; exact Except.noConfusion h
          | ok gtin =>
            rw [hidx] at h
            try dsimp only at h
            cases old with
            | obj fs =>
              try dsimp only at h
              obtain rfl := Except.ok.inj h
              constructor
              · intro p hp
                rcases mem_dictSet hp with hp1 | hp1
                · subst hp1
                  right
                  exact dictGet_dictSet_self _ _ _
                · exact hinv p hp1
              · exact keysOf_dictSet_of_mem _ hget
            | null => exact Except.noConfusion h
            | str s2 => exact Except.noConfusion h
            | num q => exact Except.noConfusion h
            | arr xs => exact Except.noConfusion h
    | null =>
      obtain rfl := Except.ok.inj h
      exact ⟨hinv, rfl⟩
    | num q =>
      obtain rfl := Except.ok.inj h
      exact ⟨hinv, rfl⟩
    | arr xs =>
      obtain rfl := Except.ok.inj h
      exact ⟨hinv, rfl⟩
    | obj fs =>
      obtain rfl := Except.ok.inj h
      exact ⟨hinv, rfl⟩

lemma enrichLoop_inv {l : List JVal} {m m2 : List (String × JVal)}
    (hinv : SkuInv m) (h : ZalandoScraperService.enrichLoop l m = Except.ok m2) :
    SkuInv m2 ∧ keysOf m2 = keysOf m := by
  induction l generalizing m with
  | nil =>
    obtain rfl := Except.ok.inj h
    exact ⟨hinv, rfl⟩
  | cons x xs ih =>
    unfold ZalandoScraperService.enrichLoop at h
    cases hstep : ZalandoScraperService.enrichSimple m x with
    | error e => rw [hstep] at h; exact Except.noConfusion h
    | ok m1 =>
      rw [hstep] at h
      obtain ⟨hinv1, hkeys1⟩ := enrichSimple_inv hinv hstep
      obtain ⟨hinv2, hkeys2⟩ := ih hinv1 h
      exact ⟨hinv2, hkeys2.trans hkeys1⟩

lemma enrichRun_inv {p : Option ZalandoScraperService.ProductData}
    {m m2 : List (String × JVal)} (hinv : SkuInv m)
    (h : ZalandoScraperService.enrichRun p m = Except.ok m2) :
    SkuInv m2 ∧ keysOf m2 = keysOf m := by
  cases p with
  | none =>
    obtain rfl := Except.ok.inj h
    exact ⟨hinv, rfl⟩
  | some pd =>
    unfold ZalandoScraperService.enrichRun at h
    try dsimp only at h
    by_cases hb : (!pd.simples.isEmpty) = true
    · rw [if_pos hb] at h
      exact enrichLoop_inv hinv h
    · rw [if_neg hb] at h
      obtain rfl := Except.ok.inj h
      exact ⟨hinv, rfl⟩

lemma pairwise_of_skuInv {m : List (String × JVal)} (hinv : SkuInv m)
    (hnd : (keysOf m).Nodup) :
    (m.map Prod.snd).Pairwise
      (fun u v => ∀ x : JVal, u.get "sku" = some x → v.get "sku" ≠ some x) := by
  induction m with
  | nil => exact List.Pairwise.nil
  | cons p rest ih =>
    obtain ⟨k, v⟩ := p
    have hv := hinv (k, v) (by simp)
    have hrest : SkuInv rest := fun q hq => hinv q (by simp [hq])
    simp only [keysOf, List.map_cons, List.nodup_cons] at hnd
    refine List.Pairwise.cons ?_ (ih hrest hnd.2)
    intro w hw x hx hwx
    obtain ⟨q, hq, rfl⟩ := List.mem_map.mp hw
    rcases hv with hv | hv
    · rw [hv] at hx
      exact Option.noConfusion hx
    · rcases hinv q (by simp [hq]) with hq2 | hq2
      · rw [hq2] at hwx
        exact Option.noConfusion hwx
      · rw [hv] at hx
        rw [hq2] at hwx
        have h1 : JVal.str k = x := Option.some.inj hx
        have h2 : JVal.str q.1 = x := Option.some.inj hwx
        have h3 : k = q.1 := by
          have h4 := h1.trans h2.symm
          injection h4
        apply hnd.1
        rw [h3]
        exact List.mem_map_of_mem Prod.fst hq
  
lemma forall₂_mem_right {P : JVal → JVal → Prop} {l l2 : List JVal}
    (h : List.Forall₂ P l l2) : ∀ b ∈ l2, ∃ a ∈ l, P a b := by
  induction h with
  | nil => intro b hb; simp at hb
  | cons hab hrest ih =>
    intro b hb
    rcases List.mem_cons.mp hb with hb1 | hb1
    · exact ⟨_, by simp, hb1 ▸ hab⟩
    · obtain ⟨a, ha, hPa⟩ := ih b hb1
      exact ⟨a, by simp [ha], hPa⟩

lemma mapMExcept_forall₂ {f : JVal → Except String JVal} {l l2 : List JVal}
    (h : ZalandoScraperService.mapMExcept f l = Except.ok l2) :
    List.Forall₂ (fun a b => f a = Except.ok b) l l2 := by
  induction l generalizing l2 with
  | nil =>
    obtain rfl := Except.ok.inj h
    exact List.Forall₂.nil
  | cons x xs ih =>
    unfold ZalandoScraperService.mapMExcept at h
    cases hfx : f x with
    | error e => rw [hfx] at h; exact Except.noConfusion h
    | ok y =>
      rw [hfx] at h
      cases hrest : ZalandoScraperService.mapMExcept f xs with
      | error e => rw [hrest] at h; exact Except.noConfusion h
      | ok ys =>
        rw [hrest] at h
        obtain rfl := Except.ok.inj h
        exact List.Forall₂.cons hfx (ih hrest)

lemma pairwise_sku_transport {l l2 : List JVal}
    (hf : List.Forall₂ (fun a b => b.get "sku" = a.get "sku") l l2)
    (hp : l.Pairwise (fun u v => ∀ x : JVal, u.get "sku" = some x → v.get "sku" ≠ some x)) :
    l2.Pairwise (fun u v => ∀ x : JVal, u.get "sku" = some x → v.get "sku" ≠ some x) := by
  induction hf with
  | nil => exact List.Pairwise.nil
  | cons hab hrest ih =>
    rw [List.pairwise_cons] at hp ⊢
    refine ⟨?_, ih hp.2⟩
    intro w hw x hx
    obtain ⟨worig, hworig, hwg⟩ := forall₂_mem_right hrest w hw
    rw [hwg]
    exact hp.1 worig hworig x (hab ▸ hx)

/-- C2: SKU uniqueness of the merged variant list.  The modern-size blocks
the extractor produces carry no `sku` field of their own (first conjunct);
under the dict invariants of the crawled map — unique keys, values without
a pre-existing `sku` field — every merged product's final `simples` list is
pairwise SKU-distinct: no two entries carry the same `sku` value.  The
crawl-absent merge (single synthetic variant) satisfies the same
conclusion. -/
theorem mergeResponses_sku_unique_spec :
    (∀ label note : String,
      (ZalandoCrawl4AIScraper.sizeBlockRecord label note).get "sku" = none)
  ∧ (∀ (pd : ZalandoScraperService.ProductData) (sd : Option ZalandoScraperService.SkuData)
      (c : ZalandoScraperService.CrawlRaw) (h : ZalandoScraperService.HtmlData)
      (u : String) (r : ZalandoScraperService.APIProductResponse)
      (pdOut : ZalandoScraperService.ProductData),
      (keysOf (c.modernSizes.getD [])).Nodup →
      (∀ p ∈ c.modernSizes.getD [], (p.2 : JVal).get "sku" = none) →
      ZalandoScraperService.mergeResponses (some pd) sd (some c) h u = Except.ok r →
      r.product_data = some pdOut →
      pdOut.simples.Pairwise
        (fun v w => ∀ x : JVal, v.get "sku" = some x → w.get "sku" ≠ some x))
  ∧ (∀ (pd : ZalandoScraperService.ProductData) (sd : Option ZalandoScraperService.SkuData)
      (h : ZalandoScraperService.HtmlData) (u : String)
      (r : ZalandoScraperService.APIProductResponse)
      (pdOut : ZalandoScraperService.ProductData),
      ZalandoScraperService.mergeResponses (some pd) sd none h u = Except.ok r →
      r.product_data = some pdOut →
      pdOut.simples.Pairwise
        (fun v w => ∀ x : JVal, v.get "sku" = some x → w.get "sku" ≠ some x)) := by
  refine ⟨?_, ?_, ?_⟩
  · intro label note
    rfl
  · intro pd sd c h u r pdOut hnd hnosku hm hr
    obtain ⟨enr, hE, hcase⟩ := mergeResponses_ok_inv hm
    rcases hcase with ⟨hc, _⟩ | ⟨cc, ns, hc, hN, rfl⟩
    · exact absurd hc (by simp)
    · obtain rfl := Option.some.inj hc
      obtain rfl := Option.some.inj hr
      rw [setSimples_simples]
      have hinv0 : SkuInv (ZalandoScraperService.skuMapOf (some c)) := fun p hp =>
        Or.inl (hnosku p hp)
      obtain ⟨hinv, hkeys⟩ := enrichRun_inv hinv0 hE
      have hnd2 : (keysOf enr).Nodup := by
        rw [hkeys]
        exact hnd
      have hF0 := mapMExcept_forall₂ hN
      have hF := List.Forall₂.imp
        (fun a b hab => attachMerchant_get_of_ne hab "sku" (by decide) (by decide)) hF0
      apply pairwise_sku_transport hF
      rw [pd2Of_simples]
      unfold ZalandoScraperService.pd1Of
      by_cases hlen : enr.length > 0
      · rw [if_pos hlen]
        exact pairwise_of_skuInv hinv hnd2
      · rw [if_neg hlen]
        exact List.pairwise_singleton _ _
  · intro pd sd h u r pdOut hm hr
    obtain ⟨enr, hE, hcase⟩ := mergeResponses_ok_inv hm
    rcases hcase with ⟨hc, rfl⟩ | ⟨cc, ns, hc, hN, rfl⟩
    · obtain rfl := Option.some.inj hr
      have henr : enr = [] := Except.ok.inj (hE.symm.trans (enrichRun_nilMap (some pd)))
      subst henr
      rw [pd2Of_simples]
      unfold ZalandoScraperService.pd1Of
      rw [if_neg (by simp)]
      exact List.pairwise_singleton _ _
    · exact Option.noConfusion hc

/-- C2 witness: the crawl-absent case applied to a concrete single-variant
merge. -/
theorem mergeResponses_sku_unique_spec_witness :
    (ZalandoScraperService.pd2Of (ZalandoScraperService.pd1Of
        ({ display_price := [("trackingCurrentAmount", JVal.num 90)] } :
          ZalandoScraperService.ProductData)
        ({ stockRecord := [("sku", JVal.str "SK1")] } :
          ZalandoScraperService.HtmlData) []) none).simples.Pairwise
      (fun v w => ∀ x : JVal, v.get "sku" = some x → w.get "sku" ≠ some x) :=
  mergeResponses_sku_unique_spec.2.2
    { display_price := [("trackingCurrentAmount", JVal.num 90)] }
    none { stockRecord := [("sku", JVal.str "SK1")] } "u"
    { product_data := some (ZalandoScraperService.pd2Of (ZalandoScraperService.pd1Of
        { display_price := [("trackingCurrentAmount", JVal.num 90)] }
        { stockRecord := [("sku", JVal.str "SK1")] } []) none),
      sku_data := none, crawl_data := none, data_sources := ["api", "html"] }
    (ZalandoScraperService.pd2Of (ZalandoScraperService.pd1Of
        { display_price := [("trackingCurrentAmount", JVal.num 90)] }
        { stockRecord := [("sku", JVal.str "SK1")] } []) none)
    rfl rfl

/-- C5 witness: the out-of-stock case applied at the text `Esaurito`. -/
theorem classifyAvailability_spec_witness :
    strContains "Esaurito" "Esaurito" = true
    ∧ Crawl4AIScraper.classifyAvailability "Esaurito"
        = (Crawl4AIScraper.AvailabilityStatus.out_of_stock, none) :=
  ⟨by decide, classifyAvailability_spec.1 "Esaurito" (by decide)⟩

/-- C9 witness: the positive case applied at the documented example URL,
whose code comes out as exactly `A9182F001-T11`. -/
theorem extract_product_code_amended_witness :
    "https://www.zalando.it/acdc-calze-mehrfarbig-a9182f001-t11.html".data
      = "https://www.zalando.it/acdc-calze-mehrfarbig".data ++ '-' :: "a9182f001".data
        ++ '-' :: "t11".data ++ ".html".data
    ∧ ZalandoURLParser.extract_product_code
        "https://www.zalando.it/acdc-calze-mehrfarbig-a9182f001-t11.html"
      = some (String.mk (("a9182f001".data ++ '-' :: "t11".data).map Char.toUpper))
    ∧ String.mk (("a9182f001".data ++ '-' :: "t11".data).map Char.toUpper)
      = "A9182F001-T11" :=
  ⟨by decide,
   extract_product_code_amended.1
     "https://www.zalando.it/acdc-calze-mehrfarbig-a9182f001-t11.html"
     "https://www.zalando.it/acdc-calze-mehrfarbig".data "a9182f001".data "t11".data
     (by decide) (by decide) (by decide) (by decide) (by decide),
   by decide⟩

/-- C10 witness: the rejection case applied at a non-HTTP URL, whatever the
branch outcomes. -/
theorem is_valid_zalando_url_amended_witness :
    ZalandoURLParser.is_valid_zalando_url "ftp://zalando.de/x-a-b.html" = false
    ∧ ZalandoScraperService.scrape_product "ftp://zalando.de/x-a-b.html"
        (Except.ok (none, none)) (Except.ok none)
      = { success := false, data := none, error := some "Invalid Zalando product URL",
          metadata := none } :=
  ⟨by decide, is_valid_zalando_url_amended.2 "ftp://zalando.de/x-a-b.html"
    (Except.ok (none, none)) (Except.ok none) (by decide)⟩
